import Mathlib

/-! gignore-cli: the command surface over the gignore rule engine

Shallow embedding of `internal/builder/builder.go`.  The handlers of the
command tree are Go closures that read flag values from the parsed command,
classify enum strings with the `gignore` parsers, call one method of
`gignore.Service` and print the returned `Result`s with the standard logger.

* The `gignore` package is an imported dependency.  Its types and pure
  functions are taken as a parameter (`Gignore`), its `Service` as a record of
  state transformers over an arbitrary store type `σ`.  Where a property
  rests on what `AnalyzeConflicts` and `AutoFix` do, the two are modelled from
  the specification (namespace `Spec`).
* The standard logger is the list of messages handed to `log.Print` /
  `log.Printf`, oldest first.
* A Go `error` value is `Option Error`, `none` being `nil`.
* `urfave/cli` is modelled by what a handler can observe of it: the declared
  flags of the command and the values given on the command line.  A flag reads
  as the last value given, else as its declared default; a command line with
  an undeclared flag, with a value the flag's parser refuses (an integer that
  does not fit a Go `int` among them) or without a required flag never reaches
  the `Action`.
* `main.go` hands `os.Args` and the file-backed service to `AppBuilder` and
  exits on a returned error; it adds nothing to what the commands do.
-/

namespace GignoreCli

/-! ## The imported `gignore` package -/

/-- The types and pure functions of package `gignore` that the builder uses. -/
structure Gignore where
  Action : Type
  DirectoryMode : Type
  MoveDirection : Type
  Rule : Type
  ConflictType : Type
  Result : Type
  Error : Type
  /-- Go `gignore.ActionFromString`. -/
  ActionFromString : String → Except Error Action
  /-- Go `gignore.DirectoryModeFromString`. -/
  DirectoryModeFromString : String → Except Error DirectoryMode
  /-- Go `gignore.MoveDirectionFromString`. -/
  MoveDirectionFromString : String → Except Error MoveDirection
  /-- Go `Result.Log()`. -/
  Log : Result → String
  /-- Go `Rule.Render()`. -/
  Render : Rule → String
  /-- The text the `%s` verb prints for a `ConflictType`. -/
  ConflictTypeString : ConflictType → String

/-- Go `gignore.Conflict`: the handler reads `Left`, `Right` and `ConflictType`. -/
structure Conflict (G : Gignore) where
  Left : G.Rule
  Right : G.Rule
  ConflictType : G.ConflictType

/-- Go `gignore.Service`: every method may read and change the store `σ`; a Go
result pair `(value, err)` is returned whole, since the handlers use the value
also when `err` is not nil. -/
structure Service (G : Gignore) (σ : Type) where
  Init : String → σ → Option G.Error × σ
  AddFileRule : String → String → G.Action → σ → (List G.Result × Option G.Error) × σ
  AddDirectoryRule :
    String → String → G.DirectoryMode → G.Action → σ → (List G.Result × Option G.Error) × σ
  AddExtensionRule : String → String → G.Action → σ → (List G.Result × Option G.Error) × σ
  AddGlobRule : String → String → G.Action → σ → (List G.Result × Option G.Error) × σ
  DeleteFileRule : String → String → G.Action → σ → (G.Result × Option G.Error) × σ
  DeleteDirectoryRule :
    String → String → G.DirectoryMode → G.Action → σ → (G.Result × Option G.Error) × σ
  DeleteExtensionRule : String → String → G.Action → σ → (G.Result × Option G.Error) × σ
  DeleteGlobRule : String → String → G.Action → σ → (G.Result × Option G.Error) × σ
  MoveRule : String → String → String → G.MoveDirection → σ → (G.Result × Option G.Error) × σ
  AnalyzeConflicts : String → σ → (List (Conflict G) × Option G.Error) × σ
  AutoFix : String → Int → σ → (List G.Result × Option G.Error) × σ

/-! ## The observable world of a handler -/

/-- What a handler can change: the store behind the service and the logger. -/
structure World (σ : Type) where
  svc : σ
  log : List String

/-- A handler body. -/
abbrev Cmd (σ : Type) (α : Type) := StateM (World σ) α

/-- A call of a service method from a handler. -/
def call {σ α : Type} (m : σ → α × σ) : Cmd σ α :=
  fun w => ((m w.svc).1, { w with svc := (m w.svc).2 })

/-- Go `log.Print(msg)`: one more message for the logger. -/
def logPrint {σ : Type} (msg : String) : Cmd σ Unit :=
  fun w => ((), { w with log := w.log ++ [msg] })

/-! ## The part of `urfave/cli` a handler sees -/

/-- Go `cli.StringFlag`. -/
structure StringFlag where
  Name : String
  Value : String := ""
  Usage : String
  Required : Bool := false
  deriving DecidableEq, Repr

/-- Go `cli.BoolFlag`. -/
structure BoolFlag where
  Name : String
  Value : Bool := false
  Usage : String
  deriving DecidableEq, Repr

/-- Go `cli.IntFlag`. -/
structure IntFlag where
  Name : String
  Value : Int := 0
  Usage : String
  deriving DecidableEq, Repr

/-- Go `cli.Flag`. -/
inductive Flag where
  | string (f : StringFlag)
  | bool (f : BoolFlag)
  | int (f : IntFlag)
  deriving DecidableEq, Repr

/-- A flag value, as declared default or as a token of the command line
reads: text, a boolean or an integer. -/
inductive FlagValue where
  | str (s : String)
  | bool (b : Bool)
  | int (i : Int)
  deriving DecidableEq, Repr

/-- The name a flag is looked up by. -/
def Flag.Name : Flag → String
  | .string f => f.Name
  | .bool f => f.Name
  | .int f => f.Name

/-- Whether the flag must be given on the command line (`Required`). -/
def Flag.Required : Flag → Bool
  | .string f => f.Required
  | .bool _ => false
  | .int _ => false

/-- The declared default of a flag (`Value`). -/
def Flag.Value : Flag → FlagValue
  | .string f => .str f.Value
  | .bool f => .bool f.Value
  | .int f => .int f.Value

/-- The parsed command `c` handed to an `Action`: the flags the command
declares and the values given on the command line. -/
structure Ctx where
  flags : List Flag
  given : List (String × FlagValue)

/-- The value the command line gives to flag `name`: the last one, when the
flag is repeated. -/
def lastGiven (name : String) : List (String × FlagValue) → Option FlagValue
  | [] => none
  | (n, v) :: rest =>
    match lastGiven name rest with
    | some later => some later
    | none => if n == name then some v else none

/-- The range of a Go `int` (64 bits). -/
def inInt64 (i : Int) : Bool :=
  decide (-9223372036854775808 ≤ i) && decide (i ≤ 9223372036854775807)

/-- Whether the library's parser for the type of the flag takes the value: a
string flag takes any text, a bool flag a boolean, an int flag an integer
that fits a Go `int`.  A value of another shape stands for a token that the
flag's parser refuses. -/
def Flag.accepts : Flag → FlagValue → Bool
  | .string _, .str _ => true
  | .bool _, .bool _ => true
  | .int _, .int i => inInt64 i
  | _, _ => false

/-- The value of flag `name`: the last one given on the command line, else the
declared default; nothing when the command declares no such flag. -/
def Ctx.lookup (c : Ctx) (name : String) : Option FlagValue :=
  match c.flags.find? (fun f => f.Name == name) with
  | none => none
  | some f =>
    match lastGiven name c.given with
    | some v => some v
    | none => some f.Value

/-- The names of the required flags that the command line does not give. -/
def Ctx.missing (c : Ctx) : List String :=
  (c.flags.filter fun f => f.Required && (lastGiven f.Name c.given).isNone).map Flag.Name

/-- Whether every flag given is one the command declares, with a value its
parser takes. -/
def Ctx.wellTyped (c : Ctx) : Bool :=
  c.given.all fun nv =>
    match c.flags.find? (fun f => f.Name == nv.1) with
    | none => false
    | some f => f.accepts nv.2

/-- Whether the library lets the command line through to the `Action`: no
undeclared flag, no refused value, no required flag left out. -/
def Ctx.accepted (c : Ctx) : Bool :=
  c.wellTyped && c.missing.isEmpty

/-- Go `c.Bool(name)`: the value of the flag when it has this type, else the zero value. -/
def Ctx.Bool (c : Ctx) (name : String) : Bool :=
  match c.lookup name with
  | some (.bool b) => b
  | _ => false

/-- Go `c.Int(name)`: the value of the flag when it has this type, else the zero value. -/
def Ctx.Int (c : Ctx) (name : String) : Int :=
  match c.lookup name with
  | some (.int i) => i
  | _ => 0

/-- Go `c.String(name)`: the value of the flag when it has this type, else the zero value. -/
def Ctx.String (c : Ctx) (name : String) : String :=
  match c.lookup name with
  | some (.str s) => s
  | _ => ""

/-- Go `cli.Command`: a leaf has an `Action`, a group has sub-commands. -/
inductive Command (G : Gignore) (σ : Type) where
  | mk (Name : String) (Usage : String) (Flags : List Flag)
      (Action : Option (Ctx → Cmd σ (Option G.Error)))
      (Commands : List (Command G σ))

namespace Command

variable {G : Gignore} {σ : Type}

def Name : Command G σ → String
  | .mk n _ _ _ _ => n

def Usage : Command G σ → String
  | .mk _ u _ _ _ => u

def Flags : Command G σ → List Flag
  | .mk _ _ f _ _ => f

def Action : Command G σ → Option (Ctx → Cmd σ (Option G.Error))
  | .mk _ _ _ a _ => a

def Commands : Command G σ → List (Command G σ)
  | .mk _ _ _ _ cs => cs

/-- The sub-command reached by a path of command names. -/
def resolve (cmd : Command G σ) : List String → Option (Command G σ)
  | [] => some cmd
  | n :: rest =>
    match cmd.Commands.find? (fun c => c.Name == n) with
    | none => none
    | some sub => resolve sub rest

/-- The action of the command named by `names`, run on a parsed command `c`:
the error it returns and the world it leaves.  Nothing (`none`) when the path
names no command with an `Action`. -/
def act (cmd : Command G σ) (names : List String) (c : Ctx) (w : World σ) :
    Option (Option G.Error × World σ) :=
  match cmd.resolve names with
  | none => none
  | some leaf =>
    match leaf.Action with
    | none => none
    | some action => some (action c w)

/-- The parsed command the action of the command at `names` receives from the
command line: the flags this command declares, with the values given. -/
def parse (cmd : Command G σ) (names : List String) (given : List (String × FlagValue)) : Ctx :=
  { flags :=
      match cmd.resolve names with
      | none => []
      | some leaf => leaf.Flags,
    given := given }

/-- Go `cmd.Run` once the command line is split into the command names and
the flags given, in the order given: the named command runs its `Action` on
itself.  The library ends the run itself, with no `Action` run (`none`), when
the path names no command with an `Action`, when a flag given is not declared
by the command or has a value its parser refuses, or when a required flag is
not given. -/
def Run (cmd : Command G σ) (names : List String) (given : List (String × FlagValue))
    (w : World σ) : Option (Option G.Error × World σ) :=
  if (cmd.parse names given).accepted then cmd.act names (cmd.parse names given) w
  else none

end Command

/-! ## `internal/builder/builder.go` -/

section Builder

variable {G : Gignore} {σ : Type}

/-- Go `logActionResults`: print `result.Log()` for every result, in order. -/
def logActionResults (results : List G.Result) : Cmd σ Unit := do
  for result in results do
    logPrint (G.Log result)

/-- The message of the `log.Printf` call of `analyze`: the format
`FOUND CONFLICT: Left: %s, Right: %s, Type: %s \n` filled with the rendered
rules of the conflict and its type. -/
def foundConflict (conflict : Conflict G) : String :=
  "FOUND CONFLICT: Left: " ++ G.Render conflict.Left ++ ", Right: " ++ G.Render conflict.Right
    ++ ", Type: " ++ G.ConflictTypeString conflict.ConflictType ++ " \n"

/-- Go `makePathCommand`: a command with the `path` flag in front of `flags`,
whose action reads `path` and hands it to `handler`. -/
def makePathCommand (name usage : String) (flags : List Flag)
    (handler : String → Ctx → Cmd σ (Option G.Error)) : Command G σ :=
  let pathFlag : StringFlag := {
    Name := "path",
    Value := ".gitignore",
    Usage := "The path to which your ignore file will be saved" }
  .mk name usage ([Flag.string pathFlag] ++ flags)
    (some fun c => do
      let path := c.String "path"
      handler path c)
    []

/-- Go `makeRuleCommand`: a path command with the `action` flag after `flags`,
whose action parses `action` before it hands over to `handler`. -/
def makeRuleCommand (name usage : String) (flags : List Flag)
    (handler : String → G.Action → Ctx → Cmd σ (Option G.Error)) : Command G σ :=
  let actionFlag : StringFlag := {
    Name := "action",
    Value := "include",
    Usage := "if you would like to ignore or allow the path (useful for exclusion) - either 'include' or 'exclude'" }
  makePathCommand name usage (flags ++ [Flag.string actionFlag]) fun path c => do
    let action := c.String "action"
    match G.ActionFromString action with
    | .error err => return some err
    | .ok parsedAction => handler path parsedAction c

/-- Go `AppBuilder`: the command tree over a service. -/
def AppBuilder (svc : Service G σ) : Command G σ :=
  let filePathFlag : StringFlag := {
    Name := "filepath",
    Usage := "the filepath to file you would like to ignore",
    Required := true }
  let extensionFlag : StringFlag := {
    Name := "extension",
    Usage := "The extension to ignore, e.g., 'txt'",
    Required := true }
  let patternFlag : StringFlag := {
    Name := "pattern",
    Usage := "The glob pattern for the rule",
    Required := true }
  let dirNameFlag : StringFlag := {
    Name := "name",
    Usage := "The name of the directory",
    Required := true }
  let dirModeFlag : StringFlag := {
    Name := "mode",
    Usage := "The mode of the directory - directory, recursive, children, anywhere, root",
    Required := true }
  let sourcePatternFlag : StringFlag := {
    Name := "source-pattern",
    Usage := "The pattern of the rule you're moving",
    Required := true }
  let destinationPatternFlag : StringFlag := {
    Name := "destination-pattern",
    Usage := "The pattern of the rule you'd like to move a rule before or after",
    Required := true }
  let directionFlag : StringFlag := {
    Name := "direction",
    Usage := "The direction of the move - before or after",
    Required := true }
  let fixFlag : BoolFlag := {
    Name := "fix",
    Usage := "Informs the tool to automatically fix found conflicts and optimize the file" }
  let maxFixes : IntFlag := {
    Name := "max",
    Value := 20,
    Usage := "The number of attempted fixes the autofixer will perform before exiting" }
  .mk "gignore-cli" "Manage your ignore files with ease" [] none [
    makePathCommand "create" "create a new ignore file" []
      (fun path _ => do
        call (svc.Init path)),
    .mk "add" "Add a new rule" [] none [
      makeRuleCommand "file" "Add a new file rule" [.string filePathFlag]
        (fun path parsedAction c => do
          let filePath := c.String "filepath"

          let (results, err) ← call (svc.AddFileRule path filePath parsedAction)
          logActionResults results

          return err),
      makeRuleCommand "directory" "Add a new directory rule" [.string dirNameFlag, .string dirModeFlag]
        (fun path parsedAction c => do
          let name := c.String "name"
          let mode := c.String "mode"

          match G.DirectoryModeFromString mode with
          | .error err => return some err
          | .ok parsedMode =>

          let (results, err) ← call (svc.AddDirectoryRule path name parsedMode parsedAction)
          logActionResults results

          return err),
      makeRuleCommand "extension" "Add a new extension rule, e.g., 'txt'" [.string extensionFlag]
        (fun path parsedAction c => do
          let ext := c.String "extension"

          let (results, err) ← call (svc.AddExtensionRule path ext parsedAction)
          logActionResults results

          return err),
      makeRuleCommand "glob" "Add a glob rule - e.g., '.coverage.*'" [.string patternFlag]
        (fun path parsedAction c => do
          let pattern := c.String "pattern"

          let (results, err) ← call (svc.AddGlobRule path pattern parsedAction)
          logActionResults results

          return err)
    ],
    .mk "delete" "Delete an existing rule" [] none [
      makeRuleCommand "file" "Remove a file rule" [.string filePathFlag]
        (fun path parsedAction c => do
          let filePath := c.String "filepath"

          let (results, err) ← call (svc.DeleteFileRule path filePath parsedAction)
          logActionResults [results]

          return err),
      makeRuleCommand "directory" "Delete a directory rule" [.string dirNameFlag, .string dirModeFlag]
        (fun path parsedAction c => do
          let name := c.String "name"
          let mode := c.String "mode"

          match G.DirectoryModeFromString mode with
          | .error err => return some err
          | .ok parsedMode =>

          let (results, err) ← call (svc.DeleteDirectoryRule path name parsedMode parsedAction)
          logActionResults [results]

          return err),
      makeRuleCommand "extension" "Delete an extension rule, e.g., 'txt'" [.string extensionFlag]
        (fun path parsedAction c => do
          let ext := c.String "extension"

          let (results, err) ← call (svc.DeleteExtensionRule path ext parsedAction)
          logActionResults [results]

          return err),
      makeRuleCommand "glob" "Delete a glob rule - e.g., '.coverage.*'" [.string patternFlag]
        (fun path parsedAction c => do
          let pattern := c.String "pattern"

          let (results, err) ← call (svc.DeleteGlobRule path pattern parsedAction)
          logActionResults [results]

          return err)
    ],
    makePathCommand "move" "manually move a rule"
      [.string sourcePatternFlag, .string destinationPatternFlag, .string directionFlag]
      (fun path c => do
        let source := c.String "source-pattern"
        let destination := c.String "destination-pattern"
        let direction := c.String "direction"

        match G.MoveDirectionFromString direction with
        | .error err => return some err
        | .ok parsedDirection =>

        let (results, err) ← call (svc.MoveRule path source destination parsedDirection)
        logActionResults [results]

        return err),
    makePathCommand "analyze" "Check if your ignorefile has any conflicts, optionally fix them"
      [.bool fixFlag, .int maxFixes]
      (fun path c => do
        let fix := c.Bool "fix"
        let maxFixes := c.Int "max"

        let (conflicts, err) ← call (svc.AnalyzeConflicts path)
        if err.isSome then
          return err

        if conflicts.length == 0 then
          logPrint "No conflicts found"

        for conflict in conflicts do
          logPrint (foundConflict conflict)

        if fix && conflicts.length > 0 then
          let (results, err) ← call (svc.AutoFix path maxFixes)
          logActionResults results

          return err

        return none)
  ]

end Builder

/-! ## Observing which service methods a handler invokes -/

/-- One invocation of a `Service` method, with its arguments in the order of
the interface. -/
inductive Call (G : Gignore) where
  | Init (path : String)
  | AddFileRule (path filePath : String) (action : G.Action)
  | AddDirectoryRule (path name : String) (mode : G.DirectoryMode) (action : G.Action)
  | AddExtensionRule (path ext : String) (action : G.Action)
  | AddGlobRule (path pattern : String) (action : G.Action)
  | DeleteFileRule (path filePath : String) (action : G.Action)
  | DeleteDirectoryRule (path name : String) (mode : G.DirectoryMode) (action : G.Action)
  | DeleteExtensionRule (path ext : String) (action : G.Action)
  | DeleteGlobRule (path pattern : String) (action : G.Action)
  | MoveRule (path source destination : String) (direction : G.MoveDirection)
  | AnalyzeConflicts (path : String)
  | AutoFix (path : String) (maxAttempts : Int)

section Spy

variable {G : Gignore} {σ : Type}

/-- A method that also appends its invocation to the record of calls. -/
def record {α : Type} (c : Call G) (m : σ → α × σ) : σ × List (Call G) → α × (σ × List (Call G)) :=
  fun s => ((m s.1).1, ((m s.1).2, s.2 ++ [c]))

/-- The service `svc` with every method recording its invocation: it answers
and changes the store exactly as `svc` does, and keeps the list of calls made
so far, oldest first. -/
def spy (svc : Service G σ) : Service G (σ × List (Call G)) where
  Init path := record (.Init path) (svc.Init path)
  AddFileRule path filePath action :=
    record (.AddFileRule path filePath action) (svc.AddFileRule path filePath action)
  AddDirectoryRule path name mode action :=
    record (.AddDirectoryRule path name mode action) (svc.AddDirectoryRule path name mode action)
  AddExtensionRule path ext action :=
    record (.AddExtensionRule path ext action) (svc.AddExtensionRule path ext action)
  AddGlobRule path pattern action :=
    record (.AddGlobRule path pattern action) (svc.AddGlobRule path pattern action)
  DeleteFileRule path filePath action :=
    record (.DeleteFileRule path filePath action) (svc.DeleteFileRule path filePath action)
  DeleteDirectoryRule path name mode action :=
    record (.DeleteDirectoryRule path name mode action)
      (svc.DeleteDirectoryRule path name mode action)
  DeleteExtensionRule path ext action :=
    record (.DeleteExtensionRule path ext action) (svc.DeleteExtensionRule path ext action)
  DeleteGlobRule path pattern action :=
    record (.DeleteGlobRule path pattern action) (svc.DeleteGlobRule path pattern action)
  MoveRule path source destination direction :=
    record (.MoveRule path source destination direction)
      (svc.MoveRule path source destination direction)
  AnalyzeConflicts path := record (.AnalyzeConflicts path) (svc.AnalyzeConflicts path)
  AutoFix path maxAttempts := record (.AutoFix path maxAttempts) (svc.AutoFix path maxAttempts)

end Spy

/-! ## Observations on a run -/

section Observe

variable {G : Gignore} {σ : Type}

/-- The eight rule commands. -/
def ruleCommands : List (List String) :=
  [["add", "file"], ["add", "directory"], ["add", "extension"], ["add", "glob"],
   ["delete", "file"], ["delete", "directory"], ["delete", "extension"], ["delete", "glob"]]

/-- Every command with an action. -/
def leafCommands : List (List String) :=
  [["create"]] ++ ruleCommands ++ [["move"], ["analyze"]]

/-- The record of calls after the command at `names` has run on the parsed
command `c` over the recording service, from the world `w`. -/
def invoked (svc : Service G σ) (names : List String) (c : Ctx)
    (w : World (σ × List (Call G))) : Option (List (Call G)) :=
  ((AppBuilder (spy svc)).act names c w).map fun o => o.2.svc.2

/-- The record of calls after the run of a command line over the recording
service; nothing when the library ends the run before any `Action`. -/
def ran (svc : Service G σ) (names : List String) (given : List (String × FlagValue))
    (w : World (σ × List (Call G))) : Option (List (Call G)) :=
  ((AppBuilder (spy svc)).Run names given w).map fun o => o.2.svc.2

/-- The error value the command at `names` returns. -/
def returned (svc : Service G σ) (names : List String) (c : Ctx) (w : World σ) :
    Option (Option G.Error) :=
  ((AppBuilder svc).act names c w).map fun o => o.1

/-- The messages in the logger after the command at `names` has run. -/
def printed (svc : Service G σ) (names : List String) (c : Ctx) (w : World σ) :
    Option (List String) :=
  ((AppBuilder svc).act names c w).map fun o => o.2.log

/-- The world after a service call that returned a list of results, all
logged, paired with the error of the call. -/
def logged (w : World σ) (r : (List G.Result × Option G.Error) × σ) : Option G.Error × World σ :=
  (r.1.2, { svc := r.2, log := w.log ++ r.1.1.map G.Log })

/-- The world after a service call that returned one result, logged, paired
with the error of the call. -/
def logged1 (w : World σ) (r : (G.Result × Option G.Error) × σ) : Option G.Error × World σ :=
  (r.1.2, { svc := r.2, log := w.log ++ [G.Log r.1.1] })

/-- The lines `analyze` prints for the conflicts found: the notice when there
are none, then one line per conflict. -/
def report (conflicts : List (Conflict G)) : List String :=
  (if conflicts.length = 0 then ["No conflicts found"] else []) ++ conflicts.map foundConflict

end Observe

/-! ## The analyzer and the autofixer behind `AnalyzeConflicts` and `AutoFix`

Package `gignore` is not part of the sources at hand; the two service methods
that `analyze` calls are modelled from sections 4.3, 4.4 and 7 of the
specification.  The store is the ordered rule sequence that the repository
loads for the path and writes back. -/

namespace Spec

variable {G : Gignore}

/-- Modelled from the spec: the Conflict Analyzer of `gignore` (section 4.3),
which is not in the sources.  It compares every pair (i, j) with i < j in store
order and returns the conflicts in the order the pairs are met; the earlier
rule is `Left`, the later one `Right`.  The test on one pair (Duplicate,
Contradiction or Redundant, by rendered pattern, action and scope) is the
parameter `classify`. -/
def analyze (classify : G.Rule → G.Rule → Option G.ConflictType) :
    List G.Rule → List (Conflict G)
  | [] => []
  | r :: rest =>
    (rest.filterMap fun q =>
      (classify r q).map fun t => { Left := r, Right := q, ConflictType := t })
    ++ analyze classify rest

/-- Modelled from the spec: the Autofixer of `gignore` (section 4.4), which is
not in the sources.  Each pass analyses the store afresh; with no conflict it
stops (Resolved); else it takes the first conflict and applies one edit, the
deletion of one rule (`victim`: the earlier rule of a Duplicate or a
Contradiction, the subsumed rule of a Redundant), reported by one Result
(`describe`).  After `n` passes it stops; when conflicts are left then
(PartialFix) they are reported by one more Result (`reportRemaining`), as
section 7 has a partial fix returned: a successful call with descriptive
Results. -/
def autoFix [DecidableEq G.Rule] (classify : G.Rule → G.Rule → Option G.ConflictType)
    (victim : Conflict G → G.Rule) (describe : Conflict G → G.Result)
    (reportRemaining : List (Conflict G) → G.Result) :
    Nat → List G.Rule → List G.Result × List G.Rule
  | 0, s =>
    (if (analyze classify s).isEmpty then [] else [reportRemaining (analyze classify s)], s)
  | n + 1, s =>
    match analyze classify s with
    | [] => ([], s)
    | k :: _ =>
      (describe k
          :: (autoFix classify victim describe reportRemaining n (s.erase (victim k))).1,
        (autoFix classify victim describe reportRemaining n (s.erase (victim k))).2)

/-- Modelled from the spec: `Service.AnalyzeConflicts` (section 6), which is
not in the sources: the analysis of the store of the path, read-only; the load
of the store is taken to succeed. -/
def AnalyzeConflicts (classify : G.Rule → G.Rule → Option G.ConflictType) (_path : String)
    (s : List G.Rule) : (List (Conflict G) × Option G.Error) × List G.Rule :=
  ((analyze classify s, none), s)

/-- Modelled from the spec: `Service.AutoFix` (section 6), which is not in the
sources: the autofixer run on the store of the path for at most `maxAttempts`
passes; the fixed store is written back and the Results are returned with no
error (a partial fix is not fatal). -/
def AutoFix [DecidableEq G.Rule] (classify : G.Rule → G.Rule → Option G.ConflictType)
    (victim : Conflict G → G.Rule) (describe : Conflict G → G.Result)
    (reportRemaining : List (Conflict G) → G.Result) (_path : String) (maxAttempts : Int)
    (s : List G.Rule) : (List G.Result × Option G.Error) × List G.Rule :=
  (((autoFix classify victim describe reportRemaining maxAttempts.toNat s).1, none),
    (autoFix classify victim describe reportRemaining maxAttempts.toNat s).2)

end Spec

/-! ## A concrete engine behind the command surface

An in-memory instance of the package and of its service, after the data model
of the specification (actions, directory modes, move directions, conflict
types, results with a message).  The handlers are evaluated on it; nothing
about the handlers is derived from it. -/

namespace Engine

inductive Action where
  | Include
  | Exclude
  deriving DecidableEq, Repr

inductive DirectoryMode where
  | Directory
  | Recursive
  | Children
  | Anywhere
  | Root
  deriving DecidableEq, Repr

inductive MoveDirection where
  | Before
  | After
  deriving DecidableEq, Repr

inductive ConflictType where
  | Duplicate
  | Contradiction
  | Redundant
  deriving DecidableEq, Repr

inductive Error where
  | InvalidAction
  | InvalidMode
  | InvalidDirection
  | NotFound
  | SameRule
  deriving DecidableEq, Repr

/-- A rule of the store: its pattern text and its action. -/
structure Rule where
  pattern : String
  action : Action
  deriving DecidableEq, Repr

/-- The report of one operation. -/
structure Result where
  success : Bool
  message : String
  deriving DecidableEq, Repr

/-- Exactly "include" and "exclude" are actions. -/
def ActionFromString (s : String) : Except Error Action :=
  if s = "include" then .ok .Include
  else if s = "exclude" then .ok .Exclude
  else .error .InvalidAction

/-- The five mode tokens; anything else is an invalid mode. -/
def DirectoryModeFromString (s : String) : Except Error DirectoryMode :=
  if s = "directory" then .ok .Directory
  else if s = "recursive" then .ok .Recursive
  else if s = "children" then .ok .Children
  else if s = "anywhere" then .ok .Anywhere
  else if s = "root" then .ok .Root
  else .error .InvalidMode

/-- Exactly "before" and "after" are directions. -/
def MoveDirectionFromString (s : String) : Except Error MoveDirection :=
  if s = "before" then .ok .Before
  else if s = "after" then .ok .After
  else .error .InvalidDirection

/-- The line of a rule: an excluded pattern carries the negation marker. -/
def Render (r : Rule) : String :=
  match r.action with
  | .Include => r.pattern
  | .Exclude => "!" ++ r.pattern

def ConflictTypeString : ConflictType → String
  | .Duplicate => "Duplicate"
  | .Contradiction => "Contradiction"
  | .Redundant => "Redundant"

/-- The pattern of a directory rule under each mode. -/
def directoryPattern (name : String) : DirectoryMode → String
  | .Directory => name ++ "/"
  | .Recursive => name ++ "/**"
  | .Children => name ++ "/*"
  | .Anywhere => "**/" ++ name ++ "/"
  | .Root => "/" ++ name ++ "/"

end Engine

/-- The package instance of the in-memory engine. -/
@[reducible] def engine : Gignore where
  Action := Engine.Action
  DirectoryMode := Engine.DirectoryMode
  MoveDirection := Engine.MoveDirection
  Rule := Engine.Rule
  ConflictType := Engine.ConflictType
  Result := Engine.Result
  Error := Engine.Error
  ActionFromString := Engine.ActionFromString
  DirectoryModeFromString := Engine.DirectoryModeFromString
  MoveDirectionFromString := Engine.MoveDirectionFromString
  Log := fun r => r.message
  Render := Engine.Render
  ConflictTypeString := Engine.ConflictTypeString

namespace Engine

/-- Append a rule unless it is already stored; a duplicate is reported, not
rejected. -/
def add (r : Rule) (s : List Rule) : (List Result × Option Error) × List Rule :=
  if r ∈ s then (([⟨true, "rule already exists: " ++ Render r⟩], none), s)
  else (([⟨true, "added rule: " ++ Render r⟩], none), s ++ [r])

/-- Remove the first stored occurrence of a rule; not found when absent. -/
def delete (r : Rule) (s : List Rule) : (Result × Option Error) × List Rule :=
  if r ∈ s then ((⟨true, "deleted rule: " ++ Render r⟩, none), s.erase r)
  else ((⟨false, "rule not found: " ++ Render r⟩, some .NotFound), s)

/-- Put `a` right before or right after every `b` of a list without `a`. -/
def place (a b : Rule) (d : MoveDirection) (s : List Rule) : List Rule :=
  s.flatMap fun x =>
    if x = b then
      match d with
      | .Before => [a, x]
      | .After => [x, a]
    else [x]

/-- Move the rule rendered as `source` next to the rule rendered as
`destination`. -/
def move (source destination : String) (d : MoveDirection) (s : List Rule) :
    (Result × Option Error) × List Rule :=
  match s.find? (fun r => Render r == source), s.find? (fun r => Render r == destination) with
  | some a, some b =>
    if a = b then ((⟨false, "source and destination are the same rule"⟩, some .SameRule), s)
    else ((⟨true, "moved rule: " ++ source⟩, none), place a b d (s.erase a))
  | _, _ => ((⟨false, "rule not found"⟩, some .NotFound), s)

/-- The test of the engine on a pair of rules: two rules with the same pattern
are duplicates under the same action and contradict each other under opposite
actions.  The engine knows no containment between different patterns. -/
def classify (r q : Rule) : Option ConflictType :=
  if q.pattern = r.pattern then
    some (if q.action = r.action then .Duplicate else .Contradiction)
  else none

/-- The rule an edit deletes: the earlier rule of the conflict. -/
def victim (k : Conflict engine) : Rule :=
  k.Left

/-- The report of one edit. -/
def describe (k : Conflict engine) : Result :=
  ⟨true, "removed rule: " ++ Render k.Left⟩

/-- The report of the conflicts left when the bound is reached. -/
def reportRemaining (ks : List (Conflict engine)) : Result :=
  ⟨false, (ks.map fun k => " [" ++ Render k.Left ++ " | " ++ Render k.Right ++ "]").foldl
    (fun text pair => text ++ pair) "partial fix, conflicts remaining:"⟩

/-- The service over one in-memory store (the path is not looked at); its
analysis and its fix are the analyzer and the autofixer of the specification
at the engine's pair test. -/
def service : Service engine (List Rule) where
  Init _ _ := (none, [])
  AddFileRule _ filePath action := add ⟨filePath, action⟩
  AddDirectoryRule _ name mode action := add ⟨directoryPattern name mode, action⟩
  AddExtensionRule _ ext action := add ⟨"*." ++ ext, action⟩
  AddGlobRule _ pattern action := add ⟨pattern, action⟩
  DeleteFileRule _ filePath action := delete ⟨filePath, action⟩
  DeleteDirectoryRule _ name mode action := delete ⟨directoryPattern name mode, action⟩
  DeleteExtensionRule _ ext action := delete ⟨"*." ++ ext, action⟩
  DeleteGlobRule _ pattern action := delete ⟨pattern, action⟩
  MoveRule _ source destination direction := move source destination direction
  AnalyzeConflicts := @Spec.AnalyzeConflicts engine classify
  AutoFix := @Spec.AutoFix engine inferInstance classify victim describe reportRemaining

/-- The same service over a store whose file cannot be read: the analysis
fails with not-found. -/
def unreadable : Service engine (List Rule) :=
  { service with AnalyzeConflicts := fun _ s => (([], some .NotFound), s) }

end Engine

/-! ## What each handler does, step by step -/

section Lemmas

variable {G : Gignore} {σ : Type}

theorem forIn_logPrint {α : Type} (f : α → String) (xs : List α) (w : World σ) :
    (forIn xs PUnit.unit (fun x _ => (do
        logPrint (f x)
        pure (ForInStep.yield PUnit.unit) : Cmd σ (ForInStep PUnit)))) w
      = (PUnit.unit, { w with log := w.log ++ xs.map f }) := by
  induction xs generalizing w with
  | nil => simp [pure, StateT.pure]
  | cons x xs ih =>
    simp only [List.forIn_cons, List.map_cons, bind, StateT.bind, logPrint, pure, StateT.pure]
    refine (ih _).trans ?_
    simp

theorem forIn_logPrint_fun {α : Type} (f : α → String) (xs : List α) :
    (forIn xs PUnit.unit (fun x _ =>
        (StateT.bind (logPrint (f x)) fun _ => StateT.pure (ForInStep.yield PUnit.unit) :
          Cmd σ (ForInStep PUnit))))
      = fun w => (PUnit.unit, { w with log := w.log ++ xs.map f }) :=
  funext fun w => forIn_logPrint f xs w

theorem logActionResults_eq (results : List G.Result) (w : World σ) :
    logActionResults results w = ((), { w with log := w.log ++ results.map G.Log }) := by
  unfold logActionResults
  simp only [bind, StateT.bind]
  have h := forIn_logPrint G.Log results w
  simp only [bind, StateT.bind] at h
  rw [h]
  rfl

theorem act_create (svc : Service G σ) (c : Ctx) (w : World σ) :
    (AppBuilder svc).act ["create"] c w
      = some ((svc.Init (c.String "path") w.svc).1,
          { svc := (svc.Init (c.String "path") w.svc).2, log := w.log }) := by
  simp only [Command.act, AppBuilder, Command.resolve, Command.Commands, Command.Name,
    makePathCommand, Command.Action]
  simp [call]

theorem act_add_file (svc : Service G σ) (c : Ctx) (w : World σ) :
    (AppBuilder svc).act ["add", "file"] c w = some (
      match G.ActionFromString (c.String "action") with
      | .error e => (some e, w)
      | .ok a => logged w (svc.AddFileRule (c.String "path") (c.String "filepath") a w.svc)) := by
  simp only [Command.act, AppBuilder, Command.resolve, Command.Commands, Command.Name,
    makePathCommand, makeRuleCommand, Command.Action]
  simp
  cases G.ActionFromString (c.String "action") with
  | error e => rfl
  | ok a => simp [bind, StateT.bind, call, logActionResults_eq, Functor.map, StateT.map, logged]

theorem act_add_directory (svc : Service G σ) (c : Ctx) (w : World σ) :
    (AppBuilder svc).act ["add", "directory"] c w = some (
      match G.ActionFromString (c.String "action") with
      | .error e => (some e, w)
      | .ok a =>
        match G.DirectoryModeFromString (c.String "mode") with
        | .error e => (some e, w)
        | .ok m => logged w (svc.AddDirectoryRule (c.String "path") (c.String "name") m a w.svc)) := by
  simp only [Command.act, AppBuilder, Command.resolve, Command.Commands, Command.Name,
    makePathCommand, makeRuleCommand, Command.Action]
  simp
  cases G.ActionFromString (c.String "action") with
  | error e => rfl
  | ok a =>
    cases G.DirectoryModeFromString (c.String "mode") with
    | error e => rfl
    | ok m => simp [bind, StateT.bind, call, logActionResults_eq, Functor.map, StateT.map, logged]

theorem act_add_extension (svc : Service G σ) (c : Ctx) (w : World σ) :
    (AppBuilder svc).act ["add", "extension"] c w = some (
      match G.ActionFromString (c.String "action") with
      | .error e => (some e, w)
      | .ok a => logged w (svc.AddExtensionRule (c.String "path") (c.String "extension") a w.svc)) := by
  simp only [Command.act, AppBuilder, Command.resolve, Command.Commands, Command.Name,
    makePathCommand, makeRuleCommand, Command.Action]
  simp
  cases G.ActionFromString (c.String "action") with
  | error e => rfl
  | ok a => simp [bind, StateT.bind, call, logActionResults_eq, Functor.map, StateT.map, logged]

theorem act_add_glob (svc : Service G σ) (c : Ctx) (w : World σ) :
    (AppBuilder svc).act ["add", "glob"] c w = some (
      match G.ActionFromString (c.String "action") with
      | .error e => (some e, w)
      | .ok a => logged w (svc.AddGlobRule (c.String "path") (c.String "pattern") a w.svc)) := by
  simp only [Command.act, AppBuilder, Command.resolve, Command.Commands, Command.Name,
    makePathCommand, makeRuleCommand, Command.Action]
  simp
  cases G.ActionFromString (c.String "action") with
  | error e => rfl
  | ok a => simp [bind, StateT.bind, call, logActionResults_eq, Functor.map, StateT.map, logged]

theorem act_delete_file (svc : Service G σ) (c : Ctx) (w : World σ) :
    (AppBuilder svc).act ["delete", "file"] c w = some (
      match G.ActionFromString (c.String "action") with
      | .error e => (some e, w)
      | .ok a => logged1 w (svc.DeleteFileRule (c.String "path") (c.String "filepath") a w.svc)) := by
  simp only [Command.act, AppBuilder, Command.resolve, Command.Commands, Command.Name,
    makePathCommand, makeRuleCommand, Command.Action]
  simp
  cases G.ActionFromString (c.String "action") with
  | error e => rfl
  | ok a => simp [bind, StateT.bind, call, logActionResults_eq, Functor.map, StateT.map, logged1]

theorem act_delete_directory (svc : Service G σ) (c : Ctx) (w : World σ) :
    (AppBuilder svc).act ["delete", "directory"] c w = some (
      match G.ActionFromString (c.String "action") with
      | .error e => (some e, w)
      | .ok a =>
        match G.DirectoryModeFromString (c.String "mode") with
        | .error e => (some e, w)
        | .ok m => logged1 w (svc.DeleteDirectoryRule (c.String "path") (c.String "name") m a w.svc)) := by
  simp only [Command.act, AppBuilder, Command.resolve, Command.Commands, Command.Name,
    makePathCommand, makeRuleCommand, Command.Action]
  simp
  cases G.ActionFromString (c.String "action") with
  | error e => rfl
  | ok a =>
    cases G.DirectoryModeFromString (c.String "mode") with
    | error e => rfl
    | ok m => simp [bind, StateT.bind, call, logActionResults_eq, Functor.map, StateT.map, logged1]

theorem act_delete_extension (svc : Service G σ) (c : Ctx) (w : World σ) :
    (AppBuilder svc).act ["delete", "extension"] c w = some (
      match G.ActionFromString (c.String "action") with
      | .error e => (some e, w)
      | .ok a => logged1 w (svc.DeleteExtensionRule (c.String "path") (c.String "extension") a w.svc)) := by
  simp only [Command.act, AppBuilder, Command.resolve, Command.Commands, Command.Name,
    makePathCommand, makeRuleCommand, Command.Action]
  simp
  cases G.ActionFromString (c.String "action") with
  | error e => rfl
  | ok a => simp [bind, StateT.bind, call, logActionResults_eq, Functor.map, StateT.map, logged1]

theorem act_delete_glob (svc : Service G σ) (c : Ctx) (w : World σ) :
    (AppBuilder svc).act ["delete", "glob"] c w = some (
      match G.ActionFromString (c.String "action") with
      | .error e => (some e, w)
      | .ok a => logged1 w (svc.DeleteGlobRule (c.String "path") (c.String "pattern") a w.svc)) := by
  simp only [Command.act, AppBuilder, Command.resolve, Command.Commands, Command.Name,
    makePathCommand, makeRuleCommand, Command.Action]
  simp
  cases G.ActionFromString (c.String "action") with
  | error e => rfl
  | ok a => simp [bind, StateT.bind, call, logActionResults_eq, Functor.map, StateT.map, logged1]

theorem act_move (svc : Service G σ) (c : Ctx) (w : World σ) :
    (AppBuilder svc).act ["move"] c w = some (
      match G.MoveDirectionFromString (c.String "direction") with
      | .error e => (some e, w)
      | .ok d =>
        logged1 w (svc.MoveRule (c.String "path") (c.String "source-pattern")
          (c.String "destination-pattern") d w.svc)) := by
  simp only [Command.act, AppBuilder, Command.resolve, Command.Commands, Command.Name,
    makePathCommand, Command.Action]
  simp
  cases G.MoveDirectionFromString (c.String "direction") with
  | error e => rfl
  | ok d => simp [bind, StateT.bind, call, logActionResults_eq, Functor.map, StateT.map, logged1]

theorem act_analyze (svc : Service G σ) (c : Ctx) (w : World σ) :
    (AppBuilder svc).act ["analyze"] c w = some (
      let found := svc.AnalyzeConflicts (c.String "path") w.svc
      if found.1.2.isSome then
        (found.1.2, { svc := found.2, log := w.log })
      else if c.Bool "fix" = true ∧ 0 < found.1.1.length then
        logged { svc := found.2, log := w.log ++ report found.1.1 }
          (svc.AutoFix (c.String "path") (c.Int "max") found.2)
      else
        (none, { svc := found.2, log := w.log ++ report found.1.1 })) := by
  simp only [Command.act, AppBuilder, Command.resolve, Command.Commands, Command.Name,
    makePathCommand, Command.Action]
  simp only [List.find?, String.reduceBEq, Option.some.injEq]
  simp only [bind, StateT.bind, call, pure, StateT.pure]
  rcases svc.AnalyzeConflicts (c.String "path") w.svc with ⟨⟨conflicts, err⟩, s⟩
  rw [forIn_logPrint_fun]
  cases err with
  | some e => rfl
  | none =>
    cases hfix : c.Bool "fix" <;> cases conflicts <;>
      simp [StateT.bind, StateT.pure, logPrint, report, logged, logActionResults_eq, call]

end Lemmas

section Defaults

variable {G : Gignore} {σ : Type}

theorem lookup_of_not_given (c : Ctx) (name : String) (v : FlagValue)
    (hf : (c.flags.find? (fun f => f.Name == name)).map Flag.Value = some v)
    (hg : lastGiven name c.given = none) : c.lookup name = some v := by
  unfold Ctx.lookup
  cases hfind : c.flags.find? (fun f => f.Name == name) with
  | none => simp [hfind] at hf
  | some f =>
    simp only [hfind, Option.map_some', Option.some.injEq] at hf
    simp [hg, hf]

theorem lookup_of_given (c : Ctx) (name : String) (d v : FlagValue)
    (hf : (c.flags.find? (fun f => f.Name == name)).map Flag.Value = some d)
    (hg : lastGiven name c.given = some v) : c.lookup name = some v := by
  unfold Ctx.lookup
  cases hfind : c.flags.find? (fun f => f.Name == name) with
  | none => simp [hfind] at hf
  | some f => simp [hg]

/-- A value read as the last one given is on the command line. -/
theorem lastGiven_mem (name : String) (given : List (String × FlagValue)) (v : FlagValue)
    (h : lastGiven name given = some v) : (name, v) ∈ given := by
  induction given with
  | nil => simp [lastGiven] at h
  | cons nv rest ih =>
    obtain ⟨n, u⟩ := nv
    unfold lastGiven at h
    cases hl : lastGiven name rest with
    | some later =>
      rw [hl] at h
      simp only [Option.some.injEq] at h
      subst h
      exact List.mem_cons_of_mem _ (ih hl)
    | none =>
      rw [hl] at h
      by_cases hn : (n == name) = true
      · simp only [hn, if_true, Option.some.injEq] at h
        have hn' : n = name := by simpa using hn
        subst h
        subst hn'
        exact List.mem_cons_self _ _
      · simp [hn] at h

/-- An accepted command line goes to the action of the command. -/
theorem Run_of_accepted (cmd : Command G σ) (names : List String)
    (given : List (String × FlagValue)) (w : World σ)
    (h : (cmd.parse names given).accepted = true) :
    cmd.Run names given w = cmd.act names (cmd.parse names given) w := by
  unfold Command.Run
  rw [if_pos h]

/-- Every command with an action declares `path` with default `.gitignore`. -/
theorem parse_find_path (svc : Service G σ) (given : List (String × FlagValue))
    (names : List String) (hn : names ∈ leafCommands) :
    (((AppBuilder svc).parse names given).flags.find? (fun f => f.Name == "path")).map Flag.Value
      = some (.str ".gitignore") := by
  simp only [leafCommands, ruleCommands, List.cons_append, List.nil_append, List.mem_cons,
    List.mem_singleton, List.not_mem_nil, or_false] at hn
  rcases hn with rfl | rfl | rfl | rfl | rfl | rfl | rfl | rfl | rfl | rfl | rfl <;> rfl

/-- Every rule command declares `action` with default `include`. -/
theorem parse_find_action (svc : Service G σ) (given : List (String × FlagValue))
    (names : List String) (hn : names ∈ ruleCommands) :
    (((AppBuilder svc).parse names given).flags.find? (fun f => f.Name == "action")).map
        Flag.Value
      = some (.str "include") := by
  simp only [ruleCommands, List.mem_cons, List.mem_singleton, List.not_mem_nil, or_false] at hn
  rcases hn with rfl | rfl | rfl | rfl | rfl | rfl | rfl | rfl <;> rfl

/-- The `path` of the parsed command: `.gitignore` unless given, else the last
value given. -/
theorem parse_path (svc : Service G σ) (given : List (String × FlagValue))
    (names : List String) (hn : names ∈ leafCommands) (path : String)
    (h : lastGiven "path" given = none ∧ path = ".gitignore"
      ∨ lastGiven "path" given = some (.str path)) :
    ((AppBuilder svc).parse names given).String "path" = path := by
  unfold Ctx.String
  rcases h with ⟨h, rfl⟩ | h
  · rw [lookup_of_not_given _ _ _ (parse_find_path svc given names hn) h]
  · rw [lookup_of_given _ _ _ _ (parse_find_path svc given names hn) h]

/-- The `action` of the parsed rule command: `include` unless given, else the
last value given. -/
theorem parse_action (svc : Service G σ) (given : List (String × FlagValue))
    (names : List String) (hn : names ∈ ruleCommands) (action : String)
    (h : lastGiven "action" given = none ∧ action = "include"
      ∨ lastGiven "action" given = some (.str action)) :
    ((AppBuilder svc).parse names given).String "action" = action := by
  unfold Ctx.String
  rcases h with ⟨h, rfl⟩ | h
  · rw [lookup_of_not_given _ _ _ (parse_find_action svc given names hn) h]
  · rw [lookup_of_given _ _ _ _ (parse_find_action svc given names hn) h]

/-- The flags `--fix` and `--max` of `analyze` as the parsed command reads
them; a given bound fits a Go `int` on an accepted command line. -/
theorem parse_analyze (svc : Service G σ) (given : List (String × FlagValue))
    (hacc : ((AppBuilder svc).parse ["analyze"] given).accepted = true) :
    (lastGiven "fix" given = some (.bool true) →
      ((AppBuilder svc).parse ["analyze"] given).Bool "fix" = true)
    ∧ (lastGiven "max" given = none →
      ((AppBuilder svc).parse ["analyze"] given).Int "max" = 20)
    ∧ (∀ n : Int, lastGiven "max" given = some (.int n) →
      ((AppBuilder svc).parse ["analyze"] given).Int "max" = n ∧ inInt64 n = true) := by
  have hfix : (((AppBuilder svc).parse ["analyze"] given).flags.find?
      (fun f => f.Name == "fix")).map Flag.Value = some (.bool false) := rfl
  have hmax : (((AppBuilder svc).parse ["analyze"] given).flags.find?
      (fun f => f.Name == "max")).map Flag.Value = some (.int 20) := rfl
  refine ⟨?_, ?_, ?_⟩
  · intro h
    unfold Ctx.Bool
    rw [lookup_of_given _ _ _ _ hfix h]
  · intro h
    unfold Ctx.Int
    rw [lookup_of_not_given _ _ _ hmax h]
  · intro n h
    constructor
    · unfold Ctx.Int
      rw [lookup_of_given _ _ _ _ hmax h]
    · have hw : ((AppBuilder svc).parse ["analyze"] given).wellTyped = true := by
        have := hacc
        simp only [Ctx.accepted, Bool.and_eq_true] at this
        exact this.1
      have hmem := lastGiven_mem "max" given (.int n) h
      have hall := List.all_eq_true.mp hw ("max", .int n) hmem
      exact hall

end Defaults

section Fixer

variable {G : Gignore}

end Fixer

/-! ## The claims -/

section Claims

variable {G : Gignore} {σ : Type}

/-- C1: on each of the eight rule commands, for every parsed command line, if
`gignore.ActionFromString` fails on the value of `action`, the command
returns exactly that error and leaves the world as it was: the record of
service calls has no new entry, the store is untouched and nothing is
logged. -/
theorem action_error_aborts_rule_command (svc : Service G σ) (c : Ctx)
    (w : World (σ × List (Call G))) (names : List String) (e : G.Error)
    (hn : names ∈ ruleCommands)
    (he : G.ActionFromString (c.String "action") = .error e) :
    (AppBuilder (spy svc)).act names c w = some (some e, w) := by
  simp only [ruleCommands, List.mem_cons, List.mem_singleton, List.not_mem_nil, or_false] at hn
  rcases hn with rfl | rfl | rfl | rfl | rfl | rfl | rfl | rfl
  · rw [act_add_file, he]
  · rw [act_add_directory, he]
  · rw [act_add_extension, he]
  · rw [act_add_glob, he]
  · rw [act_delete_file, he]
  · rw [act_delete_directory, he]
  · rw [act_delete_extension, he]
  · rw [act_delete_glob, he]

/-- The capitalised token is no action of the engine: `add file` with
`--action Include` returns the parser's error over an untouched world. -/
theorem action_error_aborts_rule_command_witness :
    ["add", "file"] ∈ ruleCommands
    ∧ engine.ActionFromString
        (((AppBuilder (spy Engine.service)).parse ["add", "file"]
          [("filepath", .str "a.txt"), ("action", .str "Include")]).String "action")
        = .error Engine.Error.InvalidAction
    ∧ (AppBuilder (spy Engine.service)).Run ["add", "file"]
        [("filepath", .str "a.txt"), ("action", .str "Include")] ⟨([], []), []⟩
        = some (some Engine.Error.InvalidAction, ⟨([], []), []⟩) :=
  ⟨by decide, rfl,
    action_error_aborts_rule_command Engine.service
      ((AppBuilder (spy Engine.service)).parse ["add", "file"]
        [("filepath", .str "a.txt"), ("action", .str "Include")])
      ⟨([], []), []⟩ ["add", "file"] Engine.Error.InvalidAction (by decide) rfl⟩

/-- C2: with a valid action, `add directory` and `delete directory` return
exactly the error of `gignore.DirectoryModeFromString` when it fails on the
value of `mode`, and `move` returns exactly the error of
`gignore.MoveDirectionFromString` when it fails on the value of `direction`;
in each case the world is left as it was, so no service method was invoked.
When the action is invalid too, the directory commands return the action
parser's error, whatever the mode parser says. -/
theorem mode_and_direction_errors_abort (svc : Service G σ) (c : Ctx)
    (w : World (σ × List (Call G))) :
    (∀ a e, G.ActionFromString (c.String "action") = .ok a →
        G.DirectoryModeFromString (c.String "mode") = .error e →
        (AppBuilder (spy svc)).act ["add", "directory"] c w = some (some e, w)
        ∧ (AppBuilder (spy svc)).act ["delete", "directory"] c w = some (some e, w))
    ∧ (∀ e, G.MoveDirectionFromString (c.String "direction") = .error e →
        (AppBuilder (spy svc)).act ["move"] c w = some (some e, w))
    ∧ (∀ e e', G.ActionFromString (c.String "action") = .error e →
        G.DirectoryModeFromString (c.String "mode") = .error e' →
        (AppBuilder (spy svc)).act ["add", "directory"] c w = some (some e, w)
        ∧ (AppBuilder (spy svc)).act ["delete", "directory"] c w = some (some e, w)) := by
  refine ⟨?_, ?_, ?_⟩
  · intro a e ha hm
    rw [act_add_directory, act_delete_directory, ha, hm]
    exact ⟨rfl, rfl⟩
  · intro e hd
    rw [act_move, hd]
  · intro e e' ha _
    rw [act_add_directory, act_delete_directory, ha]
    exact ⟨rfl, rfl⟩

/-- On the engine: `add directory --mode sideways` stops at the mode parser,
`move --direction over` at the direction parser, and `delete directory` with
both `--action ignore` and `--mode sideways` at the action parser; the world
stays as it was each time. -/
theorem mode_and_direction_errors_abort_witness :
    (AppBuilder (spy Engine.service)).Run ["add", "directory"]
        [("name", .str "build"), ("mode", .str "sideways")] ⟨([], []), []⟩
      = some (some Engine.Error.InvalidMode, ⟨([], []), []⟩)
    ∧ (AppBuilder (spy Engine.service)).Run ["move"]
        [("source-pattern", .str "a"), ("destination-pattern", .str "b"),
         ("direction", .str "over")] ⟨([⟨"a", .Include⟩, ⟨"b", .Include⟩], []), []⟩
      = some (some Engine.Error.InvalidDirection, ⟨([⟨"a", .Include⟩, ⟨"b", .Include⟩], []), []⟩)
    ∧ (AppBuilder (spy Engine.service)).Run ["delete", "directory"]
        [("name", .str "build"), ("mode", .str "sideways"), ("action", .str "ignore")]
        ⟨([], []), []⟩
      = some (some Engine.Error.InvalidAction, ⟨([], []), []⟩) :=
  ⟨((mode_and_direction_errors_abort Engine.service
        ((AppBuilder (spy Engine.service)).parse ["add", "directory"]
          [("name", .str "build"), ("mode", .str "sideways")]) ⟨([], []), []⟩).1
      Engine.Action.Include Engine.Error.InvalidMode rfl rfl).1,
    (mode_and_direction_errors_abort Engine.service
        ((AppBuilder (spy Engine.service)).parse ["move"]
          [("source-pattern", .str "a"), ("destination-pattern", .str "b"),
           ("direction", .str "over")])
        ⟨([⟨"a", .Include⟩, ⟨"b", .Include⟩], []), []⟩).2.1
      Engine.Error.InvalidDirection rfl,
    ((mode_and_direction_errors_abort Engine.service
        ((AppBuilder (spy Engine.service)).parse ["delete", "directory"]
          [("name", .str "build"), ("mode", .str "sideways"), ("action", .str "ignore")])
        ⟨([], []), []⟩).2.2
      Engine.Error.InvalidAction Engine.Error.InvalidMode rfl rfl).2⟩

/-- C3: every command from `create` to `move` whose flags parse adds exactly
one entry to the record of service calls, the method matching its name, with
the flag values unchanged and in the argument order of the interface:
`create` calls `Init(path)`; `add K` calls `AddKRule(path, value, action)` and
`delete K` calls `DeleteKRule(path, value, action)` for file, extension and
glob; `add directory` and `delete directory` call
`Add/DeleteDirectoryRule(path, name, mode, action)`; `move` calls
`MoveRule(path, source, destination, direction)`. -/
theorem handlers_invoke_matching_method (svc : Service G σ) (c : Ctx)
    (w : World (σ × List (Call G))) :
    invoked svc ["create"] c w = some (w.svc.2 ++ [.Init (c.String "path")])
    ∧ (∀ a, G.ActionFromString (c.String "action") = .ok a →
        invoked svc ["add", "file"] c w
          = some (w.svc.2 ++ [.AddFileRule (c.String "path") (c.String "filepath") a])
        ∧ invoked svc ["add", "extension"] c w
          = some (w.svc.2 ++ [.AddExtensionRule (c.String "path") (c.String "extension") a])
        ∧ invoked svc ["add", "glob"] c w
          = some (w.svc.2 ++ [.AddGlobRule (c.String "path") (c.String "pattern") a])
        ∧ invoked svc ["delete", "file"] c w
          = some (w.svc.2 ++ [.DeleteFileRule (c.String "path") (c.String "filepath") a])
        ∧ invoked svc ["delete", "extension"] c w
          = some (w.svc.2 ++ [.DeleteExtensionRule (c.String "path") (c.String "extension") a])
        ∧ invoked svc ["delete", "glob"] c w
          = some (w.svc.2 ++ [.DeleteGlobRule (c.String "path") (c.String "pattern") a])
        ∧ ∀ m, G.DirectoryModeFromString (c.String "mode") = .ok m →
            invoked svc ["add", "directory"] c w
              = some (w.svc.2 ++ [.AddDirectoryRule (c.String "path") (c.String "name") m a])
            ∧ invoked svc ["delete", "directory"] c w
              = some (w.svc.2
                  ++ [.DeleteDirectoryRule (c.String "path") (c.String "name") m a]))
    ∧ (∀ d, G.MoveDirectionFromString (c.String "direction") = .ok d →
        invoked svc ["move"] c w
          = some (w.svc.2 ++ [.MoveRule (c.String "path") (c.String "source-pattern")
              (c.String "destination-pattern") d])) := by
  refine ⟨?_, ?_, ?_⟩
  · simp [invoked, act_create, spy, record]
  · intro a ha
    refine ⟨?_, ?_, ?_, ?_, ?_, ?_, ?_⟩
    · simp [invoked, act_add_file, ha, spy, record, logged]
    · simp [invoked, act_add_extension, ha, spy, record, logged]
    · simp [invoked, act_add_glob, ha, spy, record, logged]
    · simp [invoked, act_delete_file, ha, spy, record, logged1]
    · simp [invoked, act_delete_extension, ha, spy, record, logged1]
    · simp [invoked, act_delete_glob, ha, spy, record, logged1]
    · intro m hm
      constructor
      · simp [invoked, act_add_directory, ha, hm, spy, record, logged]
      · simp [invoked, act_delete_directory, ha, hm, spy, record, logged1]
  · intro d hd
    simp [invoked, act_move, hd, spy, record, logged1]

/-- On the engine: `add glob`, `delete directory` and `move` each leave one
call, of their own method, with the values of the command line. -/
theorem handlers_invoke_matching_method_witness :
    invoked Engine.service ["add", "glob"]
        ((AppBuilder (spy Engine.service)).parse ["add", "glob"]
          [("pattern", .str "*.log"), ("action", .str "exclude")]) ⟨([], []), []⟩
      = some [Call.AddGlobRule ".gitignore" "*.log" Engine.Action.Exclude]
    ∧ invoked Engine.service ["delete", "directory"]
        ((AppBuilder (spy Engine.service)).parse ["delete", "directory"]
          [("path", .str "sub/.gitignore"), ("name", .str "build"), ("mode", .str "root")])
        ⟨([], []), []⟩
      = some [Call.DeleteDirectoryRule "sub/.gitignore" "build" Engine.DirectoryMode.Root
          Engine.Action.Include]
    ∧ invoked Engine.service ["move"]
        ((AppBuilder (spy Engine.service)).parse ["move"]
          [("source-pattern", .str "a"), ("destination-pattern", .str "b"),
           ("direction", .str "after")]) ⟨([], []), []⟩
      = some [Call.MoveRule ".gitignore" "a" "b" Engine.MoveDirection.After] :=
  ⟨((handlers_invoke_matching_method Engine.service
        ((AppBuilder (spy Engine.service)).parse ["add", "glob"]
          [("pattern", .str "*.log"), ("action", .str "exclude")]) ⟨([], []), []⟩).2.1
      Engine.Action.Exclude rfl).2.2.1,
    (((handlers_invoke_matching_method Engine.service
        ((AppBuilder (spy Engine.service)).parse ["delete", "directory"]
          [("path", .str "sub/.gitignore"), ("name", .str "build"), ("mode", .str "root")])
        ⟨([], []), []⟩).2.1
      Engine.Action.Include rfl).2.2.2.2.2.2 Engine.DirectoryMode.Root rfl).2,
    (handlers_invoke_matching_method Engine.service
        ((AppBuilder (spy Engine.service)).parse ["move"]
          [("source-pattern", .str "a"), ("destination-pattern", .str "b"),
           ("direction", .str "after")]) ⟨([], []), []⟩).2.2
      Engine.MoveDirection.After rfl⟩

/-- C4: once its flags have parsed, a command returns exactly the error of
the service call it made, `nil` included: `create` the error of `Init`; the
add, delete and move commands the error of their `Add*`, `Delete*` or
`MoveRule` call; `analyze` the error of `AnalyzeConflicts` when that is not
`nil`, else the error of `AutoFix` when the fix ran (on the store
`AnalyzeConflicts` left), else `nil`. -/
theorem handlers_return_service_error (svc : Service G σ) (c : Ctx) (w : World σ) :
    returned svc ["create"] c w = some (svc.Init (c.String "path") w.svc).1
    ∧ (∀ a, G.ActionFromString (c.String "action") = .ok a →
        returned svc ["add", "file"] c w
          = some (svc.AddFileRule (c.String "path") (c.String "filepath") a w.svc).1.2
        ∧ returned svc ["add", "extension"] c w
          = some (svc.AddExtensionRule (c.String "path") (c.String "extension") a w.svc).1.2
        ∧ returned svc ["add", "glob"] c w
          = some (svc.AddGlobRule (c.String "path") (c.String "pattern") a w.svc).1.2
        ∧ returned svc ["delete", "file"] c w
          = some (svc.DeleteFileRule (c.String "path") (c.String "filepath") a w.svc).1.2
        ∧ returned svc ["delete", "extension"] c w
          = some (svc.DeleteExtensionRule (c.String "path") (c.String "extension") a w.svc).1.2
        ∧ returned svc ["delete", "glob"] c w
          = some (svc.DeleteGlobRule (c.String "path") (c.String "pattern") a w.svc).1.2
        ∧ ∀ m, G.DirectoryModeFromString (c.String "mode") = .ok m →
            returned svc ["add", "directory"] c w
              = some (svc.AddDirectoryRule (c.String "path") (c.String "name") m a w.svc).1.2
            ∧ returned svc ["delete", "directory"] c w
              = some (svc.DeleteDirectoryRule (c.String "path") (c.String "name") m a w.svc).1.2)
    ∧ (∀ d, G.MoveDirectionFromString (c.String "direction") = .ok d →
        returned svc ["move"] c w
          = some (svc.MoveRule (c.String "path") (c.String "source-pattern")
              (c.String "destination-pattern") d w.svc).1.2)
    ∧ returned svc ["analyze"] c w
        = some (
          if (svc.AnalyzeConflicts (c.String "path") w.svc).1.2.isSome then
            (svc.AnalyzeConflicts (c.String "path") w.svc).1.2
          else if c.Bool "fix" = true
              ∧ 0 < (svc.AnalyzeConflicts (c.String "path") w.svc).1.1.length then
            (svc.AutoFix (c.String "path") (c.Int "max")
              (svc.AnalyzeConflicts (c.String "path") w.svc).2).1.2
          else none) := by
  refine ⟨?_, ?_, ?_, ?_⟩
  · simp [returned, act_create]
  · intro a ha
    refine ⟨?_, ?_, ?_, ?_, ?_, ?_, ?_⟩
    · simp [returned, act_add_file, ha, logged]
    · simp [returned, act_add_extension, ha, logged]
    · simp [returned, act_add_glob, ha, logged]
    · simp [returned, act_delete_file, ha, logged1]
    · simp [returned, act_delete_extension, ha, logged1]
    · simp [returned, act_delete_glob, ha, logged1]
    · intro m hm
      constructor
      · simp [returned, act_add_directory, ha, hm, logged]
      · simp [returned, act_delete_directory, ha, hm, logged1]
  · intro d hd
    simp [returned, act_move, hd, logged1]
  · simp only [returned, act_analyze, Option.map_some]
    split_ifs <;> simp [logged]

/-- On the engine: deleting a rule that is not stored returns the service's
not-found error, moving a rule next to itself its same-rule error, and adding
a rule `nil`. -/
theorem handlers_return_service_error_witness :
    returned Engine.service ["delete", "file"]
        ((AppBuilder Engine.service).parse ["delete", "file"] [("filepath", .str "a.txt")])
        ⟨[], []⟩
      = some (some Engine.Error.NotFound)
    ∧ returned Engine.service ["move"]
        ((AppBuilder Engine.service).parse ["move"]
          [("source-pattern", .str "a"), ("destination-pattern", .str "a"),
           ("direction", .str "before")]) ⟨[⟨"a", .Include⟩], []⟩
      = some (some Engine.Error.SameRule)
    ∧ returned Engine.service ["add", "directory"]
        ((AppBuilder Engine.service).parse ["add", "directory"]
          [("name", .str "build"), ("mode", .str "children")]) ⟨[], []⟩
      = some none :=
  ⟨((handlers_return_service_error Engine.service
        ((AppBuilder Engine.service).parse ["delete", "file"] [("filepath", .str "a.txt")])
        ⟨[], []⟩).2.1 Engine.Action.Include rfl).2.2.2.1,
    (handlers_return_service_error Engine.service
        ((AppBuilder Engine.service).parse ["move"]
          [("source-pattern", .str "a"), ("destination-pattern", .str "a"),
           ("direction", .str "before")]) ⟨[⟨"a", .Include⟩], []⟩).2.2.1
      Engine.MoveDirection.Before rfl,
    (((handlers_return_service_error Engine.service
        ((AppBuilder Engine.service).parse ["add", "directory"]
          [("name", .str "build"), ("mode", .str "children")]) ⟨[], []⟩).2.1
      Engine.Action.Include rfl).2.2.2.2.2.2 Engine.DirectoryMode.Children rfl).1⟩

/-- C5: every result the service returns to an add, delete, move or
`analyze --fix` invocation is logged, one line per result, `result.Log()` in
the returned order, whatever error came with the results: the add commands
append the lines of the returned list, the delete and move commands the line
of the one returned result, and `analyze --fix`, after its report of the
conflicts found, the lines of the list `AutoFix` returned. -/
theorem handlers_log_every_result (svc : Service G σ) (c : Ctx) (w : World σ) :
    (∀ a, G.ActionFromString (c.String "action") = .ok a →
        printed svc ["add", "file"] c w
          = some (w.log
              ++ (svc.AddFileRule (c.String "path") (c.String "filepath") a w.svc).1.1.map G.Log)
        ∧ printed svc ["add", "extension"] c w
          = some (w.log
              ++ (svc.AddExtensionRule (c.String "path") (c.String "extension") a
                    w.svc).1.1.map G.Log)
        ∧ printed svc ["add", "glob"] c w
          = some (w.log
              ++ (svc.AddGlobRule (c.String "path") (c.String "pattern") a w.svc).1.1.map G.Log)
        ∧ printed svc ["delete", "file"] c w
          = some (w.log
              ++ [G.Log (svc.DeleteFileRule (c.String "path") (c.String "filepath") a w.svc).1.1])
        ∧ printed svc ["delete", "extension"] c w
          = some (w.log
              ++ [G.Log (svc.DeleteExtensionRule (c.String "path") (c.String "extension") a
                    w.svc).1.1])
        ∧ printed svc ["delete", "glob"] c w
          = some (w.log
              ++ [G.Log (svc.DeleteGlobRule (c.String "path") (c.String "pattern") a w.svc).1.1])
        ∧ ∀ m, G.DirectoryModeFromString (c.String "mode") = .ok m →
            printed svc ["add", "directory"] c w
              = some (w.log
                  ++ (svc.AddDirectoryRule (c.String "path") (c.String "name") m a
                        w.svc).1.1.map G.Log)
            ∧ printed svc ["delete", "directory"] c w
              = some (w.log
                  ++ [G.Log (svc.DeleteDirectoryRule (c.String "path") (c.String "name") m a
                        w.svc).1.1]))
    ∧ (∀ d, G.MoveDirectionFromString (c.String "direction") = .ok d →
        printed svc ["move"] c w
          = some (w.log
              ++ [G.Log (svc.MoveRule (c.String "path") (c.String "source-pattern")
                    (c.String "destination-pattern") d w.svc).1.1]))
    ∧ ((svc.AnalyzeConflicts (c.String "path") w.svc).1.2 = none →
        c.Bool "fix" = true →
        0 < (svc.AnalyzeConflicts (c.String "path") w.svc).1.1.length →
        printed svc ["analyze"] c w
          = some (w.log
              ++ (svc.AnalyzeConflicts (c.String "path") w.svc).1.1.map foundConflict
              ++ (svc.AutoFix (c.String "path") (c.Int "max")
                    (svc.AnalyzeConflicts (c.String "path") w.svc).2).1.1.map G.Log)) := by
  refine ⟨?_, ?_, ?_⟩
  · intro a ha
    refine ⟨?_, ?_, ?_, ?_, ?_, ?_, ?_⟩
    · simp [printed, act_add_file, ha, logged]
    · simp [printed, act_add_extension, ha, logged]
    · simp [printed, act_add_glob, ha, logged]
    · simp [printed, act_delete_file, ha, logged1]
    · simp [printed, act_delete_extension, ha, logged1]
    · simp [printed, act_delete_glob, ha, logged1]
    · intro m hm
      constructor
      · simp [printed, act_add_directory, ha, hm, logged]
      · simp [printed, act_delete_directory, ha, hm, logged1]
  · intro d hd
    simp [printed, act_move, hd, logged1]
  · intro herr hfix hlen
    have hne : (svc.AnalyzeConflicts (c.String "path") w.svc).1.1.length ≠ 0 := by omega
    simp [printed, act_analyze, herr, hfix, hlen, logged, report, hne]

/-- On the engine: a failed delete still logs the result that came with the
error, a repeated add logs the duplicate report, and `analyze --fix` logs, after
the conflicts found, one line per edit. -/
theorem handlers_log_every_result_witness :
    printed Engine.service ["delete", "file"]
        ((AppBuilder Engine.service).parse ["delete", "file"] [("filepath", .str "a.txt")])
        ⟨[], []⟩
      = some ["rule not found: a.txt"]
    ∧ printed Engine.service ["add", "directory"]
        ((AppBuilder Engine.service).parse ["add", "directory"]
          [("name", .str "build"), ("mode", .str "root")]) ⟨[⟨"/build/", .Include⟩], []⟩
      = some ["rule already exists: /build/"]
    ∧ printed Engine.service ["move"]
        ((AppBuilder Engine.service).parse ["move"]
          [("source-pattern", .str "a"), ("destination-pattern", .str "b"),
           ("direction", .str "after")]) ⟨[⟨"a", .Include⟩, ⟨"b", .Include⟩], []⟩
      = some ["moved rule: a"]
    ∧ printed Engine.service ["analyze"]
        ((AppBuilder Engine.service).parse ["analyze"] [("fix", .bool true)])
        ⟨[⟨"a", .Include⟩, ⟨"a", .Include⟩, ⟨"b", .Include⟩, ⟨"b", .Include⟩], []⟩
      = some ["FOUND CONFLICT: Left: a, Right: a, Type: Duplicate \n",
          "FOUND CONFLICT: Left: b, Right: b, Type: Duplicate \n",
          "removed rule: a", "removed rule: b"] :=
  ⟨((handlers_log_every_result Engine.service
        ((AppBuilder Engine.service).parse ["delete", "file"] [("filepath", .str "a.txt")])
        ⟨[], []⟩).1 Engine.Action.Include rfl).2.2.2.1,
    (((handlers_log_every_result Engine.service
        ((AppBuilder Engine.service).parse ["add", "directory"]
          [("name", .str "build"), ("mode", .str "root")]) ⟨[⟨"/build/", .Include⟩], []⟩).1
      Engine.Action.Include rfl).2.2.2.2.2.2 Engine.DirectoryMode.Root rfl).1,
    (handlers_log_every_result Engine.service
        ((AppBuilder Engine.service).parse ["move"]
          [("source-pattern", .str "a"), ("destination-pattern", .str "b"),
           ("direction", .str "after")]) ⟨[⟨"a", .Include⟩, ⟨"b", .Include⟩], []⟩).2.1
      Engine.MoveDirection.After rfl,
    (handlers_log_every_result Engine.service
        ((AppBuilder Engine.service).parse ["analyze"] [("fix", .bool true)])
        ⟨[⟨"a", .Include⟩, ⟨"a", .Include⟩, ⟨"b", .Include⟩, ⟨"b", .Include⟩], []⟩).2.2
      rfl rfl (by decide)⟩

/-- C6: when `analyze` is run with `--fix` on a command line the library
accepts, and the analysis succeeds with at least one conflict, `AutoFix` is
invoked with `maxAttempts = 20` if `--max` is not given, and with exactly `n`,
an integer that fits a Go `int`, if `n` is the (last) value given to `--max`. -/
theorem autofix_bound_defaults_to_20 (svc : Service G σ) (given : List (String × FlagValue))
    (w : World (σ × List (Call G)))
    (hacc : ((AppBuilder (spy svc)).parse ["analyze"] given).accepted = true)
    (hfix : lastGiven "fix" given = some (.bool true))
    (herr : (svc.AnalyzeConflicts
      (((AppBuilder (spy svc)).parse ["analyze"] given).String "path") w.svc.1).1.2 = none)
    (hlen : 0 < (svc.AnalyzeConflicts
      (((AppBuilder (spy svc)).parse ["analyze"] given).String "path") w.svc.1).1.1.length) :
    (lastGiven "max" given = none →
      ran svc ["analyze"] given w
        = some (w.svc.2
            ++ [.AnalyzeConflicts (((AppBuilder (spy svc)).parse ["analyze"] given).String "path"),
                .AutoFix (((AppBuilder (spy svc)).parse ["analyze"] given).String "path") 20]))
    ∧ (∀ n : Int, lastGiven "max" given = some (.int n) →
      inInt64 n = true
      ∧ ran svc ["analyze"] given w
        = some (w.svc.2
            ++ [.AnalyzeConflicts (((AppBuilder (spy svc)).parse ["analyze"] given).String "path"),
                .AutoFix (((AppBuilder (spy svc)).parse ["analyze"] given).String "path") n])) := by
  obtain ⟨hB, hI20, hIn⟩ := parse_analyze (spy svc) given hacc
  have hB := hB hfix
  unfold ran
  rw [Run_of_accepted _ _ _ _ hacc]
  constructor
  · intro hmax
    have hI := hI20 hmax
    generalize (AppBuilder (spy svc)).parse ["analyze"] given = c at *
    simp [act_analyze, spy, record, logged, herr, hlen, hB, hI]
  · intro n hmax
    obtain ⟨hI, hr⟩ := hIn n hmax
    refine ⟨hr, ?_⟩
    generalize (AppBuilder (spy svc)).parse ["analyze"] given = c at *
    simp [act_analyze, spy, record, logged, herr, hlen, hB, hI]

/-- On the engine, over a store with a duplicate: `analyze --fix` calls
`AutoFix` with 20, `analyze --fix --max 3` with 3, and
`analyze --max 3 --fix --max 5` with 5. -/
theorem autofix_bound_defaults_to_20_witness :
    ran Engine.service ["analyze"] [("fix", .bool true)]
        ⟨([⟨"a", .Include⟩, ⟨"a", .Include⟩], []), []⟩
      = some ([] ++ [Call.AnalyzeConflicts ".gitignore", Call.AutoFix ".gitignore" 20])
    ∧ ran Engine.service ["analyze"] [("fix", .bool true), ("max", .int 3)]
        ⟨([⟨"a", .Include⟩, ⟨"a", .Include⟩], []), []⟩
      = some ([] ++ [Call.AnalyzeConflicts ".gitignore", Call.AutoFix ".gitignore" 3])
    ∧ ran Engine.service ["analyze"] [("max", .int 3), ("fix", .bool true), ("max", .int 5)]
        ⟨([⟨"a", .Include⟩, ⟨"a", .Include⟩], []), []⟩
      = some ([] ++ [Call.AnalyzeConflicts ".gitignore", Call.AutoFix ".gitignore" 5]) :=
  ⟨(autofix_bound_defaults_to_20 Engine.service [("fix", .bool true)]
        ⟨([⟨"a", .Include⟩, ⟨"a", .Include⟩], []), []⟩ rfl rfl rfl (by decide)).1 rfl,
    ((autofix_bound_defaults_to_20 Engine.service [("fix", .bool true), ("max", .int 3)]
        ⟨([⟨"a", .Include⟩, ⟨"a", .Include⟩], []), []⟩ rfl rfl rfl (by decide)).2 3 rfl).2,
    ((autofix_bound_defaults_to_20 Engine.service
        [("max", .int 3), ("fix", .bool true), ("max", .int 5)]
        ⟨([⟨"a", .Include⟩, ⟨"a", .Include⟩], []), []⟩ rfl rfl rfl (by decide)).2 5 rfl).2⟩

/-- C8: `analyze` calls `AnalyzeConflicts` exactly once, first, and after it
calls `AutoFix`, once and with the same path, exactly when `AnalyzeConflicts`
returned no error, the list of conflicts is not empty and `fix` is set; it
calls nothing else, so in every other case no mutating method is invoked and
the store is the one `AnalyzeConflicts` left. -/
theorem analyze_calls_autofix_only_when_needed (svc : Service G σ) (c : Ctx)
    (w : World (σ × List (Call G))) :
    invoked svc ["analyze"] c w
      = some (w.svc.2 ++ [.AnalyzeConflicts (c.String "path")]
          ++ if (svc.AnalyzeConflicts (c.String "path") w.svc.1).1.2.isNone = true
                ∧ 0 < (svc.AnalyzeConflicts (c.String "path") w.svc.1).1.1.length
                ∧ c.Bool "fix" = true
             then [.AutoFix (c.String "path") (c.Int "max")]
             else [])
    ∧ (¬ ((svc.AnalyzeConflicts (c.String "path") w.svc.1).1.2.isNone = true
          ∧ 0 < (svc.AnalyzeConflicts (c.String "path") w.svc.1).1.1.length
          ∧ c.Bool "fix" = true) →
        ((AppBuilder (spy svc)).act ["analyze"] c w).map (fun o => o.2.svc.1)
          = some (svc.AnalyzeConflicts (c.String "path") w.svc.1).2) := by
  constructor
  · simp only [invoked, act_analyze, Option.map_some]
    cases herr : (svc.AnalyzeConflicts (c.String "path") w.svc.1).1.2 <;>
      cases hfix : c.Bool "fix" <;>
      by_cases hlen : 0 < (svc.AnalyzeConflicts (c.String "path") w.svc.1).1.1.length <;>
      simp [spy, record, logged, herr, hfix, hlen]
  · intro h
    simp only [act_analyze, Option.map_some]
    cases herr : (svc.AnalyzeConflicts (c.String "path") w.svc.1).1.2 <;>
      cases hfix : c.Bool "fix" <;>
      by_cases hlen : 0 < (svc.AnalyzeConflicts (c.String "path") w.svc.1).1.1.length <;>
      simp [spy, record, logged, herr, hfix, hlen] at h ⊢

/-- On the engine: with conflicts but without `--fix`, and with `--fix` but
without conflicts, `analyze` only calls `AnalyzeConflicts` and the store is
unchanged. -/
theorem analyze_calls_autofix_only_when_needed_witness :
    ((AppBuilder (spy Engine.service)).Run ["analyze"] []
        ⟨([⟨"a", .Include⟩, ⟨"a", .Include⟩], []), []⟩).map (fun o => o.2.svc.1)
      = some [⟨"a", .Include⟩, ⟨"a", .Include⟩]
    ∧ ((AppBuilder (spy Engine.service)).Run ["analyze"] [("fix", .bool true)]
        ⟨([⟨"a", .Include⟩, ⟨"b", .Include⟩], []), []⟩).map (fun o => o.2.svc.1)
      = some [⟨"a", .Include⟩, ⟨"b", .Include⟩] :=
  ⟨(analyze_calls_autofix_only_when_needed Engine.service
        ((AppBuilder (spy Engine.service)).parse ["analyze"] [])
        ⟨([⟨"a", .Include⟩, ⟨"a", .Include⟩], []), []⟩).2 (by decide),
    (analyze_calls_autofix_only_when_needed Engine.service
        ((AppBuilder (spy Engine.service)).parse ["analyze"] [("fix", .bool true)])
        ⟨([⟨"a", .Include⟩, ⟨"b", .Include⟩], []), []⟩).2 (by decide)⟩

/-- C9: when `AnalyzeConflicts` succeeds, `analyze` logs the notice
`No conflicts found` exactly when the list is empty, then one
`FOUND CONFLICT` line per conflict, the k-th built from the rendered left and
right rules and the type of the k-th conflict, in the order returned (the
lines of a fix, if one runs, come after); with an empty list it returns `nil`
also when `fix` is set.  When `AnalyzeConflicts` fails, nothing is logged. -/
theorem analyze_report_mirrors_conflicts (svc : Service G σ) (c : Ctx) (w : World σ) :
    ((svc.AnalyzeConflicts (c.String "path") w.svc).1.2 = none →
      printed svc ["analyze"] c w
        = some (w.log
            ++ (if (svc.AnalyzeConflicts (c.String "path") w.svc).1.1.length = 0
                then ["No conflicts found"] else [])
            ++ (svc.AnalyzeConflicts (c.String "path") w.svc).1.1.map (fun k =>
                  "FOUND CONFLICT: Left: " ++ G.Render k.Left ++ ", Right: " ++ G.Render k.Right
                    ++ ", Type: " ++ G.ConflictTypeString k.ConflictType ++ " \n")
            ++ (if c.Bool "fix" = true
                  ∧ 0 < (svc.AnalyzeConflicts (c.String "path") w.svc).1.1.length
                then (svc.AutoFix (c.String "path") (c.Int "max")
                        (svc.AnalyzeConflicts (c.String "path") w.svc).2).1.1.map G.Log
                else []))
      ∧ ((svc.AnalyzeConflicts (c.String "path") w.svc).1.1.length = 0 →
          returned svc ["analyze"] c w = some none))
    ∧ (∀ e, (svc.AnalyzeConflicts (c.String "path") w.svc).1.2 = some e →
        printed svc ["analyze"] c w = some w.log) := by
  constructor
  · intro herr
    constructor
    · simp only [printed, act_analyze, Option.map_some, herr]
      by_cases h2 : c.Bool "fix" = true
          ∧ 0 < (svc.AnalyzeConflicts (c.String "path") w.svc).1.1.length
      · have hf : foundConflict = fun k : Conflict G =>
            "FOUND CONFLICT: Left: " ++ G.Render k.Left ++ ", Right: " ++ G.Render k.Right
              ++ ", Type: " ++ G.ConflictTypeString k.ConflictType ++ " \n" := rfl
        simp [h2, logged, report, hf]
      · have hf : foundConflict = fun k : Conflict G =>
            "FOUND CONFLICT: Left: " ++ G.Render k.Left ++ ", Right: " ++ G.Render k.Right
              ++ ", Type: " ++ G.ConflictTypeString k.ConflictType ++ " \n" := rfl
        simp [h2, report, hf]
    · intro h0
      simp [returned, act_analyze, herr, h0]
  · intro e he
    simp [printed, act_analyze, he]

/-- On the engine: a clean store gives the notice alone and `nil`, with
`--fix` set; two contradicting rules give one line; a failed analysis leaves
the logger as it was. -/
theorem analyze_report_mirrors_conflicts_witness :
    printed Engine.service ["analyze"]
        ((AppBuilder Engine.service).parse ["analyze"] [("fix", .bool true)])
        ⟨[⟨"a", .Include⟩], []⟩
      = some ["No conflicts found"]
    ∧ returned Engine.service ["analyze"]
        ((AppBuilder Engine.service).parse ["analyze"] [("fix", .bool true)])
        ⟨[⟨"a", .Include⟩], []⟩
      = some none
    ∧ printed Engine.service ["analyze"]
        ((AppBuilder Engine.service).parse ["analyze"] [])
        ⟨[⟨"a", .Include⟩, ⟨"a", .Exclude⟩], []⟩
      = some ["FOUND CONFLICT: Left: a, Right: !a, Type: Contradiction \n"]
    ∧ printed Engine.unreadable ["analyze"]
        ((AppBuilder Engine.unreadable).parse ["analyze"] [("fix", .bool true)])
        ⟨[⟨"a", .Include⟩, ⟨"a", .Exclude⟩], ["earlier line"]⟩
      = some ["earlier line"] :=
  ⟨((analyze_report_mirrors_conflicts Engine.service
        ((AppBuilder Engine.service).parse ["analyze"] [("fix", .bool true)])
        ⟨[⟨"a", .Include⟩], []⟩).1 rfl).1,
    ((analyze_report_mirrors_conflicts Engine.service
        ((AppBuilder Engine.service).parse ["analyze"] [("fix", .bool true)])
        ⟨[⟨"a", .Include⟩], []⟩).1 rfl).2 rfl,
    ((analyze_report_mirrors_conflicts Engine.service
        ((AppBuilder Engine.service).parse ["analyze"] [])
        ⟨[⟨"a", .Include⟩, ⟨"a", .Exclude⟩], []⟩).1 rfl).1,
    (analyze_report_mirrors_conflicts Engine.unreadable
        ((AppBuilder Engine.unreadable).parse ["analyze"] [("fix", .bool true)])
        ⟨[⟨"a", .Include⟩, ⟨"a", .Exclude⟩], ["earlier line"]⟩).2 Engine.Error.NotFound rfl⟩

/-- C10: on a command line the library accepts, the path handed to the
service is `.gitignore` when `--path` is not given and the (last) value given
otherwise, for every command: `path` below is that string, and the one call
of `create`, of a rule command and of `move`, and both calls of `analyze`,
carry it.  The string handed to `gignore.ActionFromString` by a rule command
is `include` when `--action` is not given and the (last) value given
otherwise: `action` below is that string, its parsed value is the action of
the rule added or deleted, and its parse error is what the command returns.
A command built by `makeRuleCommand` declares the path flag first, then its
own flags, then the action flag. -/
theorem flag_defaults (svc : Service G σ) (given : List (String × FlagValue))
    (w : World (σ × List (Call G))) (path action : String)
    (hpath : lastGiven "path" given = none ∧ path = ".gitignore"
      ∨ lastGiven "path" given = some (.str path))
    (haction : lastGiven "action" given = none ∧ action = "include"
      ∨ lastGiven "action" given = some (.str action)) :
    (((AppBuilder (spy svc)).parse ["create"] given).accepted = true →
      ran svc ["create"] given w = some (w.svc.2 ++ [.Init path]))
    ∧ (∀ a, G.ActionFromString action = .ok a →
        (((AppBuilder (spy svc)).parse ["add", "file"] given).accepted = true →
          ran svc ["add", "file"] given w
            = some (w.svc.2 ++ [.AddFileRule path
                (((AppBuilder (spy svc)).parse ["add", "file"] given).String "filepath") a]))
        ∧ (((AppBuilder (spy svc)).parse ["add", "extension"] given).accepted = true →
          ran svc ["add", "extension"] given w
            = some (w.svc.2 ++ [.AddExtensionRule path
                (((AppBuilder (spy svc)).parse ["add", "extension"] given).String "extension")
                a]))
        ∧ (((AppBuilder (spy svc)).parse ["add", "glob"] given).accepted = true →
          ran svc ["add", "glob"] given w
            = some (w.svc.2 ++ [.AddGlobRule path
                (((AppBuilder (spy svc)).parse ["add", "glob"] given).String "pattern") a]))
        ∧ (((AppBuilder (spy svc)).parse ["delete", "file"] given).accepted = true →
          ran svc ["delete", "file"] given w
            = some (w.svc.2 ++ [.DeleteFileRule path
                (((AppBuilder (spy svc)).parse ["delete", "file"] given).String "filepath") a]))
        ∧ (((AppBuilder (spy svc)).parse ["delete", "extension"] given).accepted = true →
          ran svc ["delete", "extension"] given w
            = some (w.svc.2 ++ [.DeleteExtensionRule path
                (((AppBuilder (spy svc)).parse ["delete", "extension"] given).String "extension")
                a]))
        ∧ (((AppBuilder (spy svc)).parse ["delete", "glob"] given).accepted = true →
          ran svc ["delete", "glob"] given w
            = some (w.svc.2 ++ [.DeleteGlobRule path
                (((AppBuilder (spy svc)).parse ["delete", "glob"] given).String "pattern") a]))
        ∧ (∀ m, ((AppBuilder (spy svc)).parse ["add", "directory"] given).accepted = true →
          G.DirectoryModeFromString
            (((AppBuilder (spy svc)).parse ["add", "directory"] given).String "mode") = .ok m →
          ran svc ["add", "directory"] given w
            = some (w.svc.2 ++ [.AddDirectoryRule path
                (((AppBuilder (spy svc)).parse ["add", "directory"] given).String "name") m a]))
        ∧ (∀ m, ((AppBuilder (spy svc)).parse ["delete", "directory"] given).accepted = true →
          G.DirectoryModeFromString
            (((AppBuilder (spy svc)).parse ["delete", "directory"] given).String "mode")
            = .ok m →
          ran svc ["delete", "directory"] given w
            = some (w.svc.2 ++ [.DeleteDirectoryRule path
                (((AppBuilder (spy svc)).parse ["delete", "directory"] given).String "name") m
                a])))
    ∧ (∀ e, G.ActionFromString action = .error e → ∀ names ∈ ruleCommands,
        ((AppBuilder (spy svc)).parse names given).accepted = true →
        (AppBuilder (spy svc)).Run names given w = some (some e, w))
    ∧ (∀ d, ((AppBuilder (spy svc)).parse ["move"] given).accepted = true →
        G.MoveDirectionFromString
          (((AppBuilder (spy svc)).parse ["move"] given).String "direction") = .ok d →
        ran svc ["move"] given w
          = some (w.svc.2 ++ [.MoveRule path
              (((AppBuilder (spy svc)).parse ["move"] given).String "source-pattern")
              (((AppBuilder (spy svc)).parse ["move"] given).String "destination-pattern") d]))
    ∧ (((AppBuilder (spy svc)).parse ["analyze"] given).accepted = true →
        ran svc ["analyze"] given w
          = some (w.svc.2 ++ [.AnalyzeConflicts path]
              ++ if (svc.AnalyzeConflicts path w.svc.1).1.2.isNone = true
                    ∧ 0 < (svc.AnalyzeConflicts path w.svc.1).1.1.length
                    ∧ ((AppBuilder (spy svc)).parse ["analyze"] given).Bool "fix" = true
                 then [.AutoFix path
                    (((AppBuilder (spy svc)).parse ["analyze"] given).Int "max")]
                 else []))
    ∧ (∀ (name usage : String) (flags : List Flag)
        (handler : String → G.Action → Ctx → Cmd σ (Option G.Error)),
        (makeRuleCommand name usage flags handler).Flags
          = [Flag.string {
                Name := "path",
                Value := ".gitignore",
                Usage := "The path to which your ignore file will be saved" }]
            ++ flags
            ++ [Flag.string {
                Name := "action",
                Value := "include",
                Usage := "if you would like to ignore or allow the path (useful for exclusion) - either 'include' or 'exclude'" }]) := by
  have hP : ∀ names ∈ leafCommands,
      ((AppBuilder (spy svc)).parse names given).String "path" = path :=
    fun names hn => parse_path (spy svc) given names hn path hpath
  have hA : ∀ names ∈ ruleCommands,
      ((AppBuilder (spy svc)).parse names given).String "action" = action :=
    fun names hn => parse_action (spy svc) given names hn action haction
  refine ⟨?_, ?_, ?_, ?_, ?_, ?_⟩
  · intro hacc
    have h1 := hP ["create"] (by decide)
    unfold ran
    rw [Run_of_accepted _ _ _ _ hacc]
    generalize (AppBuilder (spy svc)).parse ["create"] given = c at *
    simp [act_create, spy, record, h1]
  · intro a ha
    refine ⟨?_, ?_, ?_, ?_, ?_, ?_, ?_, ?_⟩
    · intro hacc
      have h1 := hP ["add", "file"] (by decide)
      have h2 := hA ["add", "file"] (by decide)
      unfold ran
      rw [Run_of_accepted _ _ _ _ hacc]
      generalize (AppBuilder (spy svc)).parse ["add", "file"] given = c at *
      simp [act_add_file, spy, record, logged, h1, h2, ha]
    · intro hacc
      have h1 := hP ["add", "extension"] (by decide)
      have h2 := hA ["add", "extension"] (by decide)
      unfold ran
      rw [Run_of_accepted _ _ _ _ hacc]
      generalize (AppBuilder (spy svc)).parse ["add", "extension"] given = c at *
      simp [act_add_extension, spy, record, logged, h1, h2, ha]
    · intro hacc
      have h1 := hP ["add", "glob"] (by decide)
      have h2 := hA ["add", "glob"] (by decide)
      unfold ran
      rw [Run_of_accepted _ _ _ _ hacc]
      generalize (AppBuilder (spy svc)).parse ["add", "glob"] given = c at *
      simp [act_add_glob, spy, record, logged, h1, h2, ha]
    · intro hacc
      have h1 := hP ["delete", "file"] (by decide)
      have h2 := hA ["delete", "file"] (by decide)
      unfold ran
      rw [Run_of_accepted _ _ _ _ hacc]
      generalize (AppBuilder (spy svc)).parse ["delete", "file"] given = c at *
      simp [act_delete_file, spy, record, logged1, h1, h2, ha]
    · intro hacc
      have h1 := hP ["delete", "extension"] (by decide)
      have h2 := hA ["delete", "extension"] (by decide)
      unfold ran
      rw [Run_of_accepted _ _ _ _ hacc]
      generalize (AppBuilder (spy svc)).parse ["delete", "extension"] given = c at *
      simp [act_delete_extension, spy, record, logged1, h1, h2, ha]
    · intro hacc
      have h1 := hP ["delete", "glob"] (by decide)
      have h2 := hA ["delete", "glob"] (by decide)
      unfold ran
      rw [Run_of_accepted _ _ _ _ hacc]
      generalize (AppBuilder (spy svc)).parse ["delete", "glob"] given = c at *
      simp [act_delete_glob, spy, record, logged1, h1, h2, ha]
    · intro m hacc hm
      have h1 := hP ["add", "directory"] (by decide)
      have h2 := hA ["add", "directory"] (by decide)
      unfold ran
      rw [Run_of_accepted _ _ _ _ hacc]
      generalize (AppBuilder (spy svc)).parse ["add", "directory"] given = c at *
      simp [act_add_directory, spy, record, logged, h1, h2, ha, hm]
    · intro m hacc hm
      have h1 := hP ["delete", "directory"] (by decide)
      have h2 := hA ["delete", "directory"] (by decide)
      unfold ran
      rw [Run_of_accepted _ _ _ _ hacc]
      generalize (AppBuilder (spy svc)).parse ["delete", "directory"] given = c at *
      simp [act_delete_directory, spy, record, logged1, h1, h2, ha, hm]
  · intro e he names hn hacc
    have h2 := hA names hn
    rw [Run_of_accepted _ _ _ _ hacc]
    simp only [ruleCommands, List.mem_cons, List.mem_singleton, List.not_mem_nil,
      or_false] at hn
    rcases hn with rfl | rfl | rfl | rfl | rfl | rfl | rfl | rfl
    · rw [act_add_file, h2, he]
    · rw [act_add_directory, h2, he]
    · rw [act_add_extension, h2, he]
    · rw [act_add_glob, h2, he]
    · rw [act_delete_file, h2, he]
    · rw [act_delete_directory, h2, he]
    · rw [act_delete_extension, h2, he]
    · rw [act_delete_glob, h2, he]
  · intro d hacc hd
    have h1 := hP ["move"] (by decide)
    unfold ran
    rw [Run_of_accepted _ _ _ _ hacc]
    generalize (AppBuilder (spy svc)).parse ["move"] given = c at *
    simp [act_move, spy, record, logged1, h1, hd]
  · intro hacc
    have h1 := hP ["analyze"] (by decide)
    unfold ran
    rw [Run_of_accepted _ _ _ _ hacc]
    generalize (AppBuilder (spy svc)).parse ["analyze"] given = c at *
    simp only [act_analyze, Option.map_some, h1]
    cases herr : (svc.AnalyzeConflicts path w.svc.1).1.2 <;>
      cases hfix : c.Bool "fix" <;>
      by_cases hlen : 0 < (svc.AnalyzeConflicts path w.svc.1).1.1.length <;>
      simp [spy, record, logged, herr, hfix, hlen]
  · intro name usage flags handler
    rfl

/-- On the engine: `add file --filepath a.txt` with neither `--path` nor
`--action` adds an Include rule to `.gitignore`; `create --path a --path b`
creates `b`; `delete glob` hands over the path and the action given;
`add file --action Include` returns the parser's error over an untouched
world.  A command line with an undeclared flag reaches no action. -/
theorem flag_defaults_witness :
    ran Engine.service ["add", "file"] [("filepath", .str "a.txt")] ⟨([], []), []⟩
      = some ([] ++ [Call.AddFileRule ".gitignore" "a.txt" Engine.Action.Include])
    ∧ ran Engine.service ["create"] [("path", .str "a"), ("path", .str "b")] ⟨([], []), []⟩
      = some ([] ++ [Call.Init "b"])
    ∧ ran Engine.service ["delete", "glob"]
        [("pattern", .str "*.log"), ("action", .str "exclude"), ("path", .str "sub/.gitignore")]
        ⟨([], []), []⟩
      = some ([] ++ [Call.DeleteGlobRule "sub/.gitignore" "*.log" Engine.Action.Exclude])
    ∧ (AppBuilder (spy Engine.service)).Run ["add", "file"]
        [("filepath", .str "a.txt"), ("action", .str "Include")] ⟨([], []), []⟩
      = some (some Engine.Error.InvalidAction, ⟨([], []), []⟩)
    ∧ (AppBuilder (spy Engine.service)).Run ["add", "file"]
        [("filepath", .str "a.txt"), ("bogus", .str "x")] ⟨([], []), []⟩
      = none :=
  ⟨((flag_defaults Engine.service [("filepath", .str "a.txt")] ⟨([], []), []⟩
        ".gitignore" "include" (Or.inl ⟨rfl, rfl⟩) (Or.inl ⟨rfl, rfl⟩)).2.1
      Engine.Action.Include rfl).1 rfl,
    (flag_defaults Engine.service [("path", .str "a"), ("path", .str "b")] ⟨([], []), []⟩
        "b" "include" (Or.inr rfl) (Or.inl ⟨rfl, rfl⟩)).1 rfl,
    ((flag_defaults Engine.service
        [("pattern", .str "*.log"), ("action", .str "exclude"), ("path", .str "sub/.gitignore")]
        ⟨([], []), []⟩ "sub/.gitignore" "exclude" (Or.inr rfl) (Or.inr rfl)).2.1
      Engine.Action.Exclude rfl).2.2.2.2.2.1 rfl,
    (flag_defaults Engine.service [("filepath", .str "a.txt"), ("action", .str "Include")]
        ⟨([], []), []⟩ ".gitignore" "Include" (Or.inl ⟨rfl, rfl⟩) (Or.inr rfl)).2.2.1
      Engine.Error.InvalidAction rfl ["add", "file"] (by decide) rfl,
    rfl⟩

end Claims

end GignoreCli
